import Mathlib

/-!
Shallow embedding of the flexSensorArray firmware
(src/flexSensorArray_control/flexSensorArray_control.ino).

Modelling conventions:

* C global arrays of size MAX_STEPPERS/MAX_WHISKERS (16) are modelled as total
  functions from Int; the firmware never bounds-checks its indices, so a write
  at index i is modelled as a pointwise functional update at i.
* The AccelStepper motion library is not part of this repository; the spec
  (section 4.2) treats it as an external Motion Driver with the contract
  "advances one axis by zero or one physical step per invocation" and
  "eventually drives distance_to_go() to 0 for each issued move".  It is
  modelled from that contract: run() performs exactly one step toward the
  target whenever distance remains (acceleration timing abstracted away),
  stop() ends the current motion at once (spec 4.1: halt_whisk "immediately
  stops motion"), setCurrentPosition(v) sets both the position reference and
  the target to v.
* int / long values are modelled as Int; the dispatcher compares and stores
  the parsed numeric values, so commands are embedded at the dispatch level
  (axis id and argument already converted by atoi).
* C integer division and modulus truncate toward zero, hence Int.tdiv and
  Int.tmod in the bring-up digit decoding.
-/

namespace FlexSensorArray

/-- Sentinel axis id meaning "all axes" (ALL_FLAG, line 12). -/
def ALL_FLAG : Int := 999

/-- Maximum number of steps allowed to be targeted (line 37). -/
def MAX_STEPS : Int := 200

/-- Maximum supported steppers (line 33). -/
def MAX_STEPPERS : Int := 16

/-- Maximum supported whiskers (line 34). -/
def MAX_WHISKERS : Int := 16

/-- Default protraction target in steps (line 50). -/
def default_prot : Int := 133

/-- Default retraction target in steps (line 51). -/
def default_ret : Int := 22

/-- Default AccelStepper maximum speed (line 54). -/
def default_speed : Int := 1500

/-- Default AccelStepper acceleration (line 55). -/
def default_accel : Int := 500

/-- Motion Driver state for one axis: current absolute position, pending
target, and the two kinematic limits.  Modelled from the spec, section 4.2
(the AccelStepper library is external to the repository). -/
structure Stepper where
  pos : Int
  target : Int
  maxSpeed : Int
  accel : Int
deriving Repr, DecidableEq

/-- Motion Driver distance_to_go: steps remaining to the pending target. -/
def Stepper.distanceToGo (s : Stepper) : Int := s.target - s.pos

/-- Motion Driver move_to: install a new absolute target. -/
def Stepper.moveTo (s : Stepper) (t : Int) : Stepper := { s with target := t }

/-- Motion Driver stop: end the current motion at once, abandoning the
remaining distance to the old target (modelled from the spec, section 4.1:
halt_whisk "immediately stops motion"). -/
def Stepper.stop (s : Stepper) : Stepper := { s with target := s.pos }

/-- Motion Driver set_max_speed. -/
def Stepper.setMaxSpeed (s : Stepper) (v : Int) : Stepper := { s with maxSpeed := v }

/-- Motion Driver set_acceleration. -/
def Stepper.setAcceleration (s : Stepper) (v : Int) : Stepper := { s with accel := v }

/-- Motion Driver set_current_position: re-zeroes the position reference;
the pending target is set to the same value (no motion remains). -/
def Stepper.setCurrentPosition (s : Stepper) (v : Int) : Stepper :=
  { s with pos := v, target := v }

/-- Motion Driver run (modelled from the spec, section 4.2): at most one
physical step per invocation, toward the pending target whenever distance
remains.  Acceleration timing is abstracted: a step is taken exactly when
distance_to_go is nonzero, which realises the spec hypothesis that each
issued move is eventually driven to distance_to_go = 0. -/
def Stepper.run (s : Stepper) : Stepper :=
  if s.pos < s.target then { s with pos := s.pos + 1 }
  else if s.target < s.pos then { s with pos := s.pos - 1 }
  else s

/-- Pointwise update of an Int-indexed Int array. -/
def updInt (f : Int → Int) (i v : Int) : Int → Int :=
  fun j => if j = i then v else f j

/-- Pointwise update of an Int-indexed Stepper array. -/
def updStepper (f : Int → Stepper) (i : Int) (v : Stepper) : Int → Stepper :=
  fun j => if j = i then v else f j

/-- Pointwise update of the Nat-indexed output buffer. -/
def updBuf (f : Nat → Int) (i : Nat) (v : Int) : Nat → Int :=
  fun j => if j = i then v else f j

/-- The firmware's mutable global state (lines 40 to 82): per-axis parameter
arrays, whisking phases, Motion Driver objects, declared component counts,
the sampling flag, the ISR scratch globals (output_buffer, buff_idx,
stepper_id) and the serial output stream written by the ISR. -/
structure FW where
  prot_steps : Int → Int
  ret_steps : Int → Int
  is_left : Int → Int
  whisker_col_id : Int → Int
  whisking_status : Int → Int
  steppers : Int → Stepper
  num_shields : Int
  num_steppers : Int
  num_whiskers : Int
  sampling : Int
  output_buffer : Nat → Int
  buff_idx : Nat
  stepper_id : Int
  serialOut : List (List Int)

/-- Global state at program start: prot_steps and ret_steps are initialised
with a one-element C initialiser list, so index 0 holds the default and all
other elements are zero (lines 58 to 62); counts are zero; Motion Driver
objects start at position 0 with the default kinematic limits (lines 629 to
633). -/
def globalsInit : FW where
  prot_steps := fun i => if i = 0 then default_prot else 0
  ret_steps := fun i => if i = 0 then default_ret else 0
  is_left := fun _ => 0
  whisker_col_id := fun _ => 0
  whisking_status := fun _ => 0
  steppers := fun _ => { pos := 0, target := 0, maxSpeed := default_speed, accel := default_accel }
  num_shields := 0
  num_steppers := 0
  num_whiskers := 0
  sampling := 0
  output_buffer := fun _ => 0
  buff_idx := 0
  stepper_id := 0
  serialOut := []

/-- Run-time commands recognised by the dispatcher in loop(), with the axis
id and numeric argument already converted by atoi (lines 332 to 340). -/
inductive Cmd where
  | set_prot (sid steps : Int)
  | set_ret (sid steps : Int)
  | set_speed (sid speed : Int)
  | set_accel (sid accel : Int)
  | whisk (sid : Int)
  | set_sampling (v : Int)
  | home_stepper (sid : Int)
  | halt_whisk (sid : Int)
  | retract (sid : Int)
deriving Repr, DecidableEq

/-- Command dispatcher of loop() (lines 349 to 466).  Each broadcast (ALL)
branch transcribes the corresponding C for-loop over i = 0 .. num_steppers-1
with its inlined body; each single-axis branch transcribes the else branch.
home_stepper applies the homing routine's terminating effect,
setCurrentPosition(0) (line 203); its blocking sensor loop is modelled
separately by home_stepper_run below. -/
def dispatch (st : FW) (c : Cmd) : FW :=
  match c with
  | .set_prot sid steps =>
      if steps < MAX_STEPS ∧ steps > 1 then
        if sid = ALL_FLAG then
          (List.range st.num_steppers.toNat).foldl
            (fun (s : FW) (i : Nat) => { s with prot_steps := updInt s.prot_steps ((i : Int)) steps }) st
        else
          { st with prot_steps := updInt st.prot_steps sid steps }
      else st
  | .set_ret sid steps =>
      if steps < MAX_STEPS ∧ steps > 1 then
        if sid = ALL_FLAG then
          (List.range st.num_steppers.toNat).foldl
            (fun (s : FW) (i : Nat) => { s with ret_steps := updInt s.ret_steps ((i : Int)) steps }) st
        else
          { st with ret_steps := updInt st.ret_steps sid steps }
      else st
  | .set_speed sid speed =>
      if sid = ALL_FLAG then
        (List.range st.num_steppers.toNat).foldl
          (fun (s : FW) (i : Nat) =>
            let v := (s.steppers ((i : Int))).setMaxSpeed speed
            { s with steppers := updStepper s.steppers ((i : Int)) v }) st
      else
        { st with steppers := updStepper st.steppers sid ((st.steppers sid).setMaxSpeed speed) }
  | .set_accel sid accel =>
      if sid = ALL_FLAG then
        (List.range st.num_steppers.toNat).foldl
          (fun (s : FW) (i : Nat) =>
            let v := (s.steppers ((i : Int))).setAcceleration accel
            { s with steppers := updStepper s.steppers ((i : Int)) v }) st
      else
        { st with steppers := updStepper st.steppers sid ((st.steppers sid).setAcceleration accel) }
  | .whisk sid =>
      if sid = ALL_FLAG then
        (List.range st.num_steppers.toNat).foldl
          (fun (s : FW) (i : Nat) =>
            let s1 := { s with whisking_status := updInt s.whisking_status ((i : Int)) 2 }
            let v := (s1.steppers ((i : Int))).moveTo (s1.prot_steps ((i : Int)))
            { s1 with steppers := updStepper s1.steppers ((i : Int)) v }) st
      else
        let s1 := { st with whisking_status := updInt st.whisking_status sid 2 }
        let v := (s1.steppers sid).moveTo (s1.prot_steps sid)
        { s1 with steppers := updStepper s1.steppers sid v }
  | .set_sampling v => { st with sampling := v }
  | .home_stepper sid =>
      if sid = ALL_FLAG then
        (List.range st.num_steppers.toNat).foldl
          (fun (s : FW) (i : Nat) =>
            let v := (s.steppers ((i : Int))).setCurrentPosition 0
            { s with steppers := updStepper s.steppers ((i : Int)) v }) st
      else
        { st with steppers := updStepper st.steppers sid ((st.steppers sid).setCurrentPosition 0) }
  | .halt_whisk sid =>
      if sid = ALL_FLAG then
        (List.range st.num_steppers.toNat).foldl
          (fun (s : FW) (i : Nat) =>
            let s1 := { s with steppers := updStepper s.steppers ((i : Int)) ((s.steppers ((i : Int))).stop) }
            { s1 with whisking_status := updInt s1.whisking_status ((i : Int)) 1 }) st
      else
        let s1 := { st with steppers := updStepper st.steppers sid ((st.steppers sid).stop) }
        { s1 with whisking_status := updInt s1.whisking_status sid 1 }
  | .retract sid =>
      if sid = ALL_FLAG then
        (List.range st.num_steppers.toNat).foldl
          (fun (s : FW) (i : Nat) =>
            let v := (s.steppers ((i : Int))).moveTo (s.ret_steps ((i : Int)))
            let s1 := { s with steppers := updStepper s.steppers ((i : Int)) v }
            { s1 with whisking_status := updInt s1.whisking_status ((i : Int)) 1 }) st
      else
        let v := (st.steppers sid).moveTo (st.ret_steps sid)
        let s1 := { st with steppers := updStepper st.steppers sid v }
        { s1 with whisking_status := updInt s1.whisking_status sid 1 }

/-- One pass of the whisking state machine and Motion Driver advance for axis
i (body of the for-loop at lines 478 to 488): if the phase is nonzero and the
pending move is complete, decrement the phase, and if the decremented phase is
still nonzero issue the retraction move; then run the Motion Driver once. -/
def motionStepAxis (st : FW) (i : Int) : FW :=
  let st1 :=
    if st.whisking_status i ≠ 0 then
      if (st.steppers i).distanceToGo = 0 then
        let w := st.whisking_status i - 1
        let stW := { st with whisking_status := updInt st.whisking_status i w }
        if w ≠ 0 then
          let v := (stW.steppers i).moveTo (stW.ret_steps i)
          { stW with steppers := updStepper stW.steppers i v }
        else stW
      else st
    else st
  { st1 with steppers := updStepper st1.steppers i ((st1.steppers i).run) }

/-- Motion pass over the first n axes, in the order of the C for-loop
(axis 0 first, axis n-1 last). -/
def motionPassAux (st : FW) : Nat → FW
  | 0 => st
  | n + 1 => motionStepAxis (motionPassAux st n) ((n : Int))

/-- The per-iteration motion pass of loop() (lines 477 to 488): advance the
whisking state machine and the Motion Driver once for every declared axis. -/
def motionPass (st : FW) : FW := motionPassAux st st.num_steppers.toNat

/-- Repeated Main Cycle motion passes (loop() invoked k times with an empty
serial input queue). -/
def motionIter (st : FW) : Nat → FW
  | 0 => st
  | k + 1 => motionPass (motionIter st k)

/-- One full Main Cycle iteration of loop(): all pending command lines are
drained and dispatched first (lines 342 to 475), then the motion pass runs
(lines 477 to 488). -/
def loopIteration (cmds : List Cmd) (st : FW) : FW :=
  motionPass (cmds.foldl dispatch st)

/-- Whisking-state view of one axis: phase, Motion Driver position and
target, and the axis's retraction target (the only parameter the motion pass
reads). -/
structure AxisLoc where
  ws : Int
  pos : Int
  target : Int
  ret : Int
deriving Repr, DecidableEq

/-- Projection of the firmware state onto one axis's whisking-relevant
state. -/
def FW.axisLoc (st : FW) (a : Int) : AxisLoc :=
  { ws := st.whisking_status a
    pos := (st.steppers a).pos
    target := (st.steppers a).target
    ret := st.ret_steps a }

/-- Position after one Motion Driver run invocation: one step toward the
target when distance remains. -/
def runPos (p t : Int) : Int :=
  if p < t then p + 1 else if t < p then p - 1 else p

/-- Axis-local form of motionStepAxis. -/
def axStep (A : AxisLoc) : AxisLoc :=
  let A1 :=
    if A.ws ≠ 0 then
      if A.target - A.pos = 0 then
        let w := A.ws - 1
        let AW := { A with ws := w }
        if w ≠ 0 then { AW with target := AW.ret } else AW
      else A
    else A
  { A1 with pos := runPos A1.pos A1.target }

/-- Axis-local trajectory under repeated motion passes. -/
def axTraj (A : AxisLoc) : Nat → AxisLoc
  | 0 => A
  | k + 1 => axStep (axTraj A k)

/-- One line emitted by the sampling ISR for whisker i, and the scratch-state
effects of assembling it (body of the for-loop at lines 163 to 189): the six
output_buffer slots are filled in order with timestamp, whisker id, owning
stepper id, whisking status, current position and sensor reading; buff_idx
ends at 6; the buffered values are then printed as one line.  millis and
analogRead are indexed by the whisker number (one call each per loop
body). -/
def isrLineStep (millis analog : Nat → Int) (st : FW) (i : Nat) : FW :=
  let b0 := updBuf st.output_buffer 0 (millis i)
  let b1 := updBuf b0 1 ((i : Int))
  let sid := st.whisker_col_id ((i : Int))
  let b2 := updBuf b1 2 sid
  let b3 := updBuf b2 3 (st.whisking_status sid)
  let b4 := updBuf b3 4 ((st.steppers sid).pos)
  let b5 := updBuf b4 5 (analog i)
  let line := (List.range 6).map b5
  { st with output_buffer := b5, buff_idx := 6, stepper_id := sid,
            serialOut := st.serialOut ++ [line] }

/-- The Timer1 interrupt service routine (lines 156 to 191): when the global
sampling flag is nonzero, emit one line per attached whisker; otherwise do
nothing at all. -/
def timerIsr (millis analog : Nat → Int) (st : FW) : FW :=
  if st.sampling ≠ 0 then
    (List.range st.num_whiskers.toNat).foldl (isrLineStep millis analog) st
  else st

/-- The content of one telemetry line for whisker i as a function of the
state at ISR entry (isrLineStep only mutates ISR scratch state, never the
fields it reads). -/
def isrLine (millis analog : Nat → Int) (st : FW) (i : Nat) : List Int :=
  [millis i, ((i : Int)), st.whisker_col_id ((i : Int)),
   st.whisking_status (st.whisker_col_id ((i : Int))),
   (st.steppers (st.whisker_col_id ((i : Int)))).pos, analog i]

/-- Single low-level homing step directions (onestep FORWARD / BACKWARD,
SINGLE mode). -/
inductive StepDir where
  | forward
  | backward
deriving Repr, DecidableEq

/-- Homing direction chosen by the orientation flag (lines 196 to 200):
FORWARD when is_left is truthy, BACKWARD otherwise. -/
def homeDir (leftFlag : Int) : StepDir :=
  if leftFlag ≠ 0 then StepDir.forward else StepDir.backward

/-- The blocking sensor loop of home_stepper (lines 193 to 204), fuel-indexed
because the C loop is unbounded.  limit k is the k-th digitalRead of the
axis's limit pin (true = HIGH = not yet triggered).  Each pass issues exactly
one single step in the orientation direction followed by the fixed 25 ms
settling delay.  The result is the list of issued (direction, delay) pairs
when the loop exits within the given fuel, and none when the fuel runs out
with the sensor still reading HIGH. -/
def home_stepper_run (limit : Nat → Bool) (leftFlag : Int) :
    Nat → Nat → Option (List (StepDir × Nat))
  | 0, _ => none
  | fuel + 1, k =>
      if limit k then
        Option.map (fun tr => (homeDir leftFlag, 25) :: tr)
          (home_stepper_run limit leftFlag fuel (k + 1))
      else some []

/-- Full homing routine for one axis: when the sensor loop terminates, the
axis's position reference is zeroed via setCurrentPosition(0) (line 203). -/
def home_stepper_model (st : FW) (sid : Int) (limit : Nat → Bool) (fuel : Nat) :
    Option FW :=
  Option.map
    (fun _ =>
      { st with steppers := updStepper st.steppers sid ((st.steppers sid).setCurrentPosition 0) })
    (home_stepper_run limit (st.is_left sid) fuel 0)

/-- Bring-up s command handler (lines 249 to 287): decodes the tens and ones
digits of the motor, whisker and side arguments (C division and modulus
truncate toward zero), and for each nonzero motor digit binds that axis's
whisker channels, orientation and stepper, in tens-then-ones order.  The
whisker-binding for-loops write whisker_col_id starting at index 0 exactly as
the C code does.  Shield and raw stepper objects are hardware handles with no
further modelled state. -/
def setup_s (st : FW) (midx numw side : Int) : FW :=
  let mone := Int.tmod midx 10
  let mten := Int.tmod (Int.tdiv midx 10) 10
  let wone := Int.tmod numw 10
  let wten := Int.tmod (Int.tdiv numw 10) 10
  let sone := Int.tmod side 10
  let sten := Int.tmod (Int.tdiv side 10) 10
  let st1 :=
    if mten ≠ 0 then
      let stA :=
        if wten ≠ 0 then
          let colw := (List.range wten.toNat).foldl
            (fun (f : Int → Int) (i : Nat) => updInt f ((i : Int)) st.num_steppers) st.whisker_col_id
          { st with whisker_col_id := colw, num_whiskers := st.num_whiskers + wten }
        else st
      let stB := { stA with is_left := updInt stA.is_left stA.num_steppers sten }
      { stB with num_steppers := stB.num_steppers + 1 }
    else st
  let st2 :=
    if mone ≠ 0 then
      let stA :=
        if wone ≠ 0 then
          let colw := (List.range wone.toNat).foldl
            (fun (f : Int → Int) (i : Nat) => updInt f ((i : Int)) st1.num_steppers) st1.whisker_col_id
          { st1 with whisker_col_id := colw, num_whiskers := st1.num_whiskers + wone }
        else st1
      let stB := { stA with is_left := updInt stA.is_left stA.num_steppers sone }
      { stB with num_steppers := stB.num_steppers + 1 }
    else st1
  { st2 with num_shields := st2.num_shields + 1 }

/-- Delimiter set of the command tokenizer (lines 142 and 148): comma, space,
tab and newline. -/
def isDelim (c : Char) : Bool :=
  c = ',' || c = ' ' || c = '\t' || c = '\n'

/-- Token list produced by parse (lines 139 to 152), as the stored
argument_words entries read back after the call.  The line is the buffer
content up to the terminating NUL; maxArgs is the third argument of parse.
Each iteration skips a delimiter run (overwriting it with NUL), stores a
pointer to the next token and, unless the truncation break fires, skips the
token body; a token cut off by the break is never NUL-terminated at its end,
so it reads back as the entire remaining buffer.  A line ending in
delimiters stores one final empty token.  The fuel argument dominates the
loop (the C loop consumes at least one character per stored token). -/
def parseTokens (maxArgs : Nat) : Nat → List Char → Nat → List (List Char)
  | 0, _, _ => []
  | _ + 1, [], _ => []
  | fuel + 1, c :: cs, argCount =>
      let l1 := (c :: cs).dropWhile isDelim
      let argCount1 := argCount + 1
      if argCount1 = maxArgs - 1 then [l1]
      else
        let tok := l1.takeWhile (fun d => !(isDelim d))
        let rest := l1.dropWhile (fun d => !(isDelim d))
        tok :: parseTokens maxArgs fuel rest argCount1

/-- Token list of one parsed command line. -/
def parseLine (l : List Char) (maxArgs : Nat) : List (List Char) :=
  parseTokens maxArgs (l.length + 1) l 0

/-- Value passed for maxArgs by both callers of parse (lines 245 and 347):
sizeof(argument_words), the byte size of a table of 8 char pointers, which
on the ATmega2560 target (2-byte pointers) is 16, not the element count 8. -/
def sizeof_argument_words : Nat := 8 * 2

/-- Declared element count of the argument_words table (line 131). -/
def argument_words_len : Nat := 8

/-- Slots of argument_words written by parsing one line: one slot per stored
token (argument_words is advanced once per token, lines 144 to 145) plus the
terminator slot written on exit (line 151). -/
def writeSlots (l : List Char) (maxArgs : Nat) : List Nat :=
  List.range ((parseLine l maxArgs).length + 1)

/-- Slots of argument_words read by the dispatcher of loop() for a given
command word (lines 349 to 466): slot 0 is always read by the strcmp chain;
the four two-argument commands read slots 1 and 2; the five one-argument
commands read slot 1; an unrecognised word reads only slot 0. -/
def readSlots (cmd : List Char) : List Nat :=
  if cmd = String.toList "set_prot" then [0, 1, 2]
  else if cmd = String.toList "set_ret" then [0, 1, 2]
  else if cmd = String.toList "set_speed" then [0, 1, 2]
  else if cmd = String.toList "set_accel" then [0, 1, 2]
  else if cmd = String.toList "whisk" then [0, 1]
  else if cmd = String.toList "set_sampling" then [0, 1]
  else if cmd = String.toList "home_stepper" then [0, 1]
  else if cmd = String.toList "halt_whisk" then [0, 1]
  else if cmd = String.toList "retract" then [0, 1]
  else [0]

section UpdateLemmas

@[simp] theorem updInt_self (f : Int → Int) (i v : Int) : updInt f i v i = v := by
  simp [updInt]

theorem updInt_ne (f : Int → Int) (i v j : Int) (h : j ≠ i) : updInt f i v j = f j := by
  simp [updInt, h]

@[simp] theorem updStepper_self (f : Int → Stepper) (i : Int) (v : Stepper) :
    updStepper f i v i = v := by
  simp [updStepper]

theorem updStepper_ne (f : Int → Stepper) (i : Int) (v : Stepper) (j : Int) (h : j ≠ i) :
    updStepper f i v j = f j := by
  simp [updStepper, h]

end UpdateLemmas

section MotionProjection

theorem motionStepAxis_num_steppers (st : FW) (i : Int) :
    (motionStepAxis st i).num_steppers = st.num_steppers := by
  unfold motionStepAxis
  dsimp only
  split_ifs <;> rfl

theorem motionStepAxis_axisLoc_ne (st : FW) (i j : Int) (h : j ≠ i) :
    (motionStepAxis st i).axisLoc j = st.axisLoc j := by
  unfold motionStepAxis FW.axisLoc
  dsimp only
  split_ifs <;> simp [updInt, updStepper, h]

theorem motionStepAxis_axisLoc_self (st : FW) (i : Int) :
    (motionStepAxis st i).axisLoc i = axStep (st.axisLoc i) := by
  unfold motionStepAxis axStep FW.axisLoc Stepper.distanceToGo Stepper.moveTo Stepper.run runPos
  dsimp only
  split_ifs <;> simp_all [updInt, updStepper]

theorem motionPassAux_num_steppers (st : FW) (n : Nat) :
    (motionPassAux st n).num_steppers = st.num_steppers := by
  induction n with
  | zero => rfl
  | succ n ih => rw [motionPassAux, motionStepAxis_num_steppers, ih]

theorem motionPassAux_axisLoc_ge (st : FW) (n : Nat) (a : Int) (h : (n : Int) ≤ a) :
    (motionPassAux st n).axisLoc a = st.axisLoc a := by
  induction n with
  | zero => rfl
  | succ n ih =>
      rw [motionPassAux, motionStepAxis_axisLoc_ne _ _ _ (by omega), ih (by omega)]

theorem motionPassAux_axisLoc_lt (st : FW) (n : Nat) (a : Int)
    (h0 : 0 ≤ a) (h : a < (n : Int)) :
    (motionPassAux st n).axisLoc a = axStep (st.axisLoc a) := by
  induction n with
  | zero => omega
  | succ n ih =>
      rw [motionPassAux]
      rcases lt_or_ge a (n : Int) with hlt | hge
      · rw [motionStepAxis_axisLoc_ne _ _ _ (by omega), ih hlt]
      · have ha : a = (n : Int) := by omega
        rw [ha, motionStepAxis_axisLoc_self, motionPassAux_axisLoc_ge st n _ (by omega)]

theorem motionPass_num_steppers (st : FW) :
    (motionPass st).num_steppers = st.num_steppers :=
  motionPassAux_num_steppers st _

theorem motionPass_axisLoc (st : FW) (a : Int) (h0 : 0 ≤ a) (h : a < st.num_steppers) :
    (motionPass st).axisLoc a = axStep (st.axisLoc a) := by
  unfold motionPass
  exact motionPassAux_axisLoc_lt st _ a h0 (by omega)

theorem motionIter_num_steppers (st : FW) (k : Nat) :
    (motionIter st k).num_steppers = st.num_steppers := by
  induction k with
  | zero => rfl
  | succ k ih => rw [motionIter, motionPass_num_steppers, ih]

theorem motionIter_axisLoc (st : FW) (a : Int) (h0 : 0 ≤ a) (h : a < st.num_steppers) :
    ∀ k, (motionIter st k).axisLoc a = axTraj (st.axisLoc a) k := by
  intro k
  induction k with
  | zero => rfl
  | succ k ih =>
      rw [motionIter, axTraj, ← ih]
      exact motionPass_axisLoc _ a h0 (by rw [motionIter_num_steppers]; exact h)

end MotionProjection

section AxisTemporal

theorem runPos_eq_self (p t : Int) (h : t = p) : runPos p t = p := by
  simp [runPos, h]

theorem runPos_natAbs (p t : Int) (h : t - p ≠ 0) :
    (t - runPos p t).natAbs = (t - p).natAbs - 1 := by
  unfold runPos
  split_ifs <;> omega

theorem axStep_running (A : AxisLoc) (hw : A.ws ≠ 0) (hd : A.target - A.pos ≠ 0) :
    axStep A = { A with pos := runPos A.pos A.target } := by
  simp [axStep, hw, hd]

theorem axStep_trans (A : AxisLoc) (hw : A.ws ≠ 0) (hw1 : A.ws - 1 ≠ 0)
    (hd : A.target - A.pos = 0) :
    axStep A = { ws := A.ws - 1, pos := runPos A.pos A.ret, target := A.ret, ret := A.ret } := by
  simp [axStep, hw, hw1, hd]

theorem axStep_to_idle (A : AxisLoc) (hw : A.ws = 1) (hd : A.target - A.pos = 0) :
    axStep A = { A with ws := 0 } := by
  have hp : A.target = A.pos := by omega
  simp [axStep, hw, hd, runPos_eq_self _ _ hp]

theorem axStep_idle (A : AxisLoc) (hw : A.ws = 0) (hd : A.target = A.pos) :
    axStep A = A := by
  obtain ⟨w, q, t, r⟩ := A
  simp only [] at hw hd
  subst hw
  subst hd
  simp [axStep, runPos]

theorem axTraj_idle (A : AxisLoc) (hw : A.ws = 0) (hd : A.target = A.pos) :
    ∀ k, axTraj A k = A := by
  intro k
  induction k with
  | zero => rfl
  | succ k ih => rw [axTraj, ih, axStep_idle A hw hd]

theorem axTraj_add (A : AxisLoc) (m k : Nat) :
    axTraj A (m + k) = axTraj (axTraj A m) k := by
  induction k with
  | zero => rfl
  | succ k ih => rw [← Nat.add_assoc, axTraj, axTraj, ih]

theorem axStep_running_fields (A : AxisLoc) (hw : A.ws ≠ 0) (hd : A.target - A.pos ≠ 0) :
    (axStep A).ws = A.ws ∧ (axStep A).pos = runPos A.pos A.target ∧
    (axStep A).target = A.target ∧ (axStep A).ret = A.ret := by
  rw [axStep_running A hw hd]
  exact ⟨rfl, rfl, rfl, rfl⟩

theorem axTraj_leg (A : AxisLoc) (hw : A.ws ≠ 0) :
    ∀ k, k ≤ (A.target - A.pos).natAbs →
      (axTraj A k).ws = A.ws ∧ (axTraj A k).target = A.target ∧
      (axTraj A k).ret = A.ret ∧
      (A.target - (axTraj A k).pos).natAbs = (A.target - A.pos).natAbs - k := by
  intro k
  induction k with
  | zero => simp [axTraj]
  | succ k ih =>
      intro hk
      obtain ⟨ihw, iht, ihr, ihd⟩ := ih (by omega)
      have hne : (axTraj A k).target - (axTraj A k).pos ≠ 0 := by
        rw [iht]
        omega
      obtain ⟨ew, ep, et, er⟩ := axStep_running_fields (axTraj A k) (by rw [ihw]; exact hw) hne
      rw [axTraj]
      refine ⟨by rw [ew, ihw], by rw [et, iht], by rw [er, ihr], ?_⟩
      rw [ep, iht]
      have hrp := runPos_natAbs (axTraj A k).pos (axTraj A k).target hne
      rw [iht] at hrp hne
      omega

theorem axTraj_whisk_cycle (p P R : Int) :
    ∃ n1 n2 : Nat, 0 < n1 ∧ n1 < n2 ∧
      (∀ k, k < n1 → (axTraj { ws := 2, pos := p, target := P, ret := R } k).ws = 2) ∧
      (∀ k, n1 ≤ k → k < n2 →
        (axTraj { ws := 2, pos := p, target := P, ret := R } k).ws = 1) ∧
      (∀ k, n1 ≤ k →
        (axTraj { ws := 2, pos := p, target := P, ret := R } k).target = R) ∧
      (∀ k, n2 ≤ k →
        (axTraj { ws := 2, pos := p, target := P, ret := R } k).ws = 0 ∧
        (axTraj { ws := 2, pos := p, target := P, ret := R } k).pos = R) := by
  set A0 : AxisLoc := { ws := 2, pos := p, target := P, ret := R } with hA0
  have hw2 : A0.ws = 2 := rfl
  have hr0 : A0.ret = R := rfl
  have hw0 : A0.ws ≠ 0 := by rw [hw2]; decide
  have leg1 := axTraj_leg A0 hw0
  obtain ⟨b1w, b1t, b1r, b1d⟩ :=
    leg1 (A0.target - A0.pos).natAbs (le_refl _)
  have hB1d : (axTraj A0 (A0.target - A0.pos).natAbs).target -
      (axTraj A0 (A0.target - A0.pos).natAbs).pos = 0 := by
    rw [b1t]
    omega
  have htrans : axTraj A0 ((A0.target - A0.pos).natAbs + 1) =
      { ws := 1, pos := runPos (axTraj A0 (A0.target - A0.pos).natAbs).pos R,
        target := R, ret := R } := by
    rw [axTraj, axStep_trans _ (by rw [b1w]; exact hw0) (by rw [b1w, hw2]; decide) hB1d]
    rw [b1w, hw2, b1r, hr0]
    norm_num
  have hB2w : (axTraj A0 ((A0.target - A0.pos).natAbs + 1)).ws = 1 := by rw [htrans]
  have hB2t : (axTraj A0 ((A0.target - A0.pos).natAbs + 1)).target = R := by rw [htrans]
  have leg2 := axTraj_leg (axTraj A0 ((A0.target - A0.pos).natAbs + 1)) (by rw [hB2w]; decide)
  obtain ⟨b3w, b3t, b3r, b3d⟩ :=
    leg2 ((axTraj A0 ((A0.target - A0.pos).natAbs + 1)).target -
      (axTraj A0 ((A0.target - A0.pos).natAbs + 1)).pos).natAbs (le_refl _)
  have hB3pos : (axTraj (axTraj A0 ((A0.target - A0.pos).natAbs + 1))
      ((axTraj A0 ((A0.target - A0.pos).natAbs + 1)).target -
        (axTraj A0 ((A0.target - A0.pos).natAbs + 1)).pos).natAbs).pos = R := by
    omega
  have hB3d : (axTraj (axTraj A0 ((A0.target - A0.pos).natAbs + 1))
      ((axTraj A0 ((A0.target - A0.pos).natAbs + 1)).target -
        (axTraj A0 ((A0.target - A0.pos).natAbs + 1)).pos).natAbs).target -
      (axTraj (axTraj A0 ((A0.target - A0.pos).natAbs + 1))
      ((axTraj A0 ((A0.target - A0.pos).natAbs + 1)).target -
        (axTraj A0 ((A0.target - A0.pos).natAbs + 1)).pos).natAbs).pos = 0 := by
    omega
  have hC : axTraj (axTraj A0 ((A0.target - A0.pos).natAbs + 1))
      (((axTraj A0 ((A0.target - A0.pos).natAbs + 1)).target -
        (axTraj A0 ((A0.target - A0.pos).natAbs + 1)).pos).natAbs + 1) =
      { axTraj (axTraj A0 ((A0.target - A0.pos).natAbs + 1))
          ((axTraj A0 ((A0.target - A0.pos).natAbs + 1)).target -
            (axTraj A0 ((A0.target - A0.pos).natAbs + 1)).pos).natAbs with ws := 0 } := by
    rw [axTraj, axStep_to_idle _ (by rw [b3w, hB2w]) hB3d]
  have hCw : (axTraj (axTraj A0 ((A0.target - A0.pos).natAbs + 1))
      (((axTraj A0 ((A0.target - A0.pos).natAbs + 1)).target -
        (axTraj A0 ((A0.target - A0.pos).natAbs + 1)).pos).natAbs + 1)).ws = 0 := by
    rw [hC]
  have hCpos : (axTraj (axTraj A0 ((A0.target - A0.pos).natAbs + 1))
      (((axTraj A0 ((A0.target - A0.pos).natAbs + 1)).target -
        (axTraj A0 ((A0.target - A0.pos).natAbs + 1)).pos).natAbs + 1)).pos = R := by
    rw [hC]
    exact hB3pos
  have hCt : (axTraj (axTraj A0 ((A0.target - A0.pos).natAbs + 1))
      (((axTraj A0 ((A0.target - A0.pos).natAbs + 1)).target -
        (axTraj A0 ((A0.target - A0.pos).natAbs + 1)).pos).natAbs + 1)).target = R := by
    rw [hC]
    show (axTraj (axTraj A0 ((A0.target - A0.pos).natAbs + 1))
      ((axTraj A0 ((A0.target - A0.pos).natAbs + 1)).target -
        (axTraj A0 ((A0.target - A0.pos).natAbs + 1)).pos).natAbs).target = R
    rw [b3t, hB2t]
  have hCfix : ∀ j, axTraj (axTraj (axTraj A0 ((A0.target - A0.pos).natAbs + 1))
      (((axTraj A0 ((A0.target - A0.pos).natAbs + 1)).target -
        (axTraj A0 ((A0.target - A0.pos).natAbs + 1)).pos).natAbs + 1)) j =
      axTraj (axTraj A0 ((A0.target - A0.pos).natAbs + 1))
      (((axTraj A0 ((A0.target - A0.pos).natAbs + 1)).target -
        (axTraj A0 ((A0.target - A0.pos).natAbs + 1)).pos).natAbs + 1) := by
    intro j
    exact axTraj_idle _ hCw (by rw [hCt, hCpos]) j
  refine ⟨(A0.target - A0.pos).natAbs + 1,
    (A0.target - A0.pos).natAbs +
      ((axTraj A0 ((A0.target - A0.pos).natAbs + 1)).target -
        (axTraj A0 ((A0.target - A0.pos).natAbs + 1)).pos).natAbs + 2,
    by omega, by omega, ?_, ?_, ?_, ?_⟩
  · intro k hk
    obtain ⟨w, _, _, _⟩ := leg1 k (by omega)
    rw [w, hw2]
  · intro k hk1 hk2
    obtain ⟨j, rfl⟩ := Nat.exists_eq_add_of_le hk1
    rw [axTraj_add]
    obtain ⟨w, _, _, _⟩ := leg2 j (by omega)
    rw [w, hB2w]
  · intro k hk1
    obtain ⟨j, rfl⟩ := Nat.exists_eq_add_of_le hk1
    rw [axTraj_add]
    rcases le_or_lt j ((axTraj A0 ((A0.target - A0.pos).natAbs + 1)).target -
        (axTraj A0 ((A0.target - A0.pos).natAbs + 1)).pos).natAbs with hj | hj
    · obtain ⟨_, t, _, _⟩ := leg2 j hj
      rw [t, hB2t]
    · obtain ⟨j2, rfl⟩ : ∃ j2, j = (((axTraj A0 ((A0.target - A0.pos).natAbs + 1)).target -
          (axTraj A0 ((A0.target - A0.pos).natAbs + 1)).pos).natAbs + 1) + j2 :=
        ⟨j - (((axTraj A0 ((A0.target - A0.pos).natAbs + 1)).target -
          (axTraj A0 ((A0.target - A0.pos).natAbs + 1)).pos).natAbs + 1), by omega⟩
      rw [axTraj_add, hCfix j2, hCt]
  · intro k hk
    obtain ⟨j, hj⟩ : ∃ j, k = ((A0.target - A0.pos).natAbs + 1) +
        ((((axTraj A0 ((A0.target - A0.pos).natAbs + 1)).target -
          (axTraj A0 ((A0.target - A0.pos).natAbs + 1)).pos).natAbs + 1) + j) :=
      ⟨k - ((A0.target - A0.pos).natAbs +
        ((axTraj A0 ((A0.target - A0.pos).natAbs + 1)).target -
          (axTraj A0 ((A0.target - A0.pos).natAbs + 1)).pos).natAbs + 2), by omega⟩
    subst hj
    rw [axTraj_add, axTraj_add, hCfix j]
    exact ⟨hCw, hCpos⟩

end AxisTemporal

section DispatchLemmas

theorem dispatch_whisk_num_steppers (st : FW) (a : Int) (h : a ≠ ALL_FLAG) :
    (dispatch st (Cmd.whisk a)).num_steppers = st.num_steppers := by
  simp [dispatch, h]

theorem dispatch_whisk_axisLoc (st : FW) (a : Int) (h : a ≠ ALL_FLAG) :
    (dispatch st (Cmd.whisk a)).axisLoc a =
      { ws := 2, pos := (st.steppers a).pos, target := st.prot_steps a,
        ret := st.ret_steps a } := by
  simp [dispatch, h, FW.axisLoc, Stepper.moveTo, updInt, updStepper]

end DispatchLemmas

/-- C1: for a declared axis a that is idle with distance_to_go() = 0,
dispatching whisk a sets the phase to protracting (2) and issues a move to
the protraction target; under repeated Main Cycle motion passes the phase is
2 up to some n1, 1 from n1 up to some n2 and 0 from n2 on, the pending
target is the retraction target from the protracting-to-retracting
transition onward (so the move to the retraction target is issued exactly
there and never re-issued), and from the moment idle is reached the position
equals the configured retraction target. -/
theorem whisk_single_cycle (st : FW) (a : Int)
    (h0 : 0 ≤ a) (hlt : a < st.num_steppers) (hall : a ≠ ALL_FLAG)
    (hidle : st.whisking_status a = 0)
    (hdtg : (st.steppers a).distanceToGo = 0) :
    (dispatch st (Cmd.whisk a)).whisking_status a = 2 ∧
    ((dispatch st (Cmd.whisk a)).steppers a).target = st.prot_steps a ∧
    ∃ n1 n2 : Nat, 0 < n1 ∧ n1 < n2 ∧
      (∀ k, k < n1 →
        (motionIter (dispatch st (Cmd.whisk a)) k).whisking_status a = 2) ∧
      (∀ k, n1 ≤ k → k < n2 →
        (motionIter (dispatch st (Cmd.whisk a)) k).whisking_status a = 1) ∧
      (∀ k, n1 ≤ k →
        ((motionIter (dispatch st (Cmd.whisk a)) k).steppers a).target = st.ret_steps a) ∧
      (∀ k, n2 ≤ k →
        (motionIter (dispatch st (Cmd.whisk a)) k).whisking_status a = 0 ∧
        ((motionIter (dispatch st (Cmd.whisk a)) k).steppers a).pos = st.ret_steps a) := by
  have hloc := dispatch_whisk_axisLoc st a hall
  have hlt1 : a < (dispatch st (Cmd.whisk a)).num_steppers := by
    rw [dispatch_whisk_num_steppers st a hall]
    exact hlt
  have proj : ∀ k, (motionIter (dispatch st (Cmd.whisk a)) k).axisLoc a =
      axTraj ((dispatch st (Cmd.whisk a)).axisLoc a) k :=
    fun k => motionIter_axisLoc _ a h0 hlt1 k
  rw [hloc] at proj
  obtain ⟨n1, n2, hn1, hn12, g2, g1, gt, g0⟩ :=
    axTraj_whisk_cycle (st.steppers a).pos (st.prot_steps a) (st.ret_steps a)
  refine ⟨congrArg AxisLoc.ws hloc, congrArg AxisLoc.target hloc,
    n1, n2, hn1, hn12, ?_, ?_, ?_, ?_⟩
  · intro k hk
    have e := congrArg AxisLoc.ws (proj k)
    exact e.trans (g2 k hk)
  · intro k hk1 hk2
    have e := congrArg AxisLoc.ws (proj k)
    exact e.trans (g1 k hk1 hk2)
  · intro k hk1
    have e := congrArg AxisLoc.target (proj k)
    exact e.trans (gt k hk1)
  · intro k hk
    have e := congrArg AxisLoc.ws (proj k)
    have e2 := congrArg AxisLoc.pos (proj k)
    exact ⟨e.trans (g0 k hk).1, e2.trans (g0 k hk).2⟩

/-- Witness for C1: the bring-up line s 0 10 10 00 declares one axis with
one whisker; axis 0 is idle with no pending motion and carries the default
targets protraction = 133, retraction = 22, so the theorem applies and the
position on reaching idle is 22. -/
theorem whisk_single_cycle_witness :
    ((0 : Int) ≤ 0 ∧ (0 : Int) < (setup_s globalsInit 10 10 0).num_steppers ∧
      (0 : Int) ≠ ALL_FLAG ∧
      (setup_s globalsInit 10 10 0).whisking_status 0 = 0 ∧
      ((setup_s globalsInit 10 10 0).steppers 0).distanceToGo = 0 ∧
      (setup_s globalsInit 10 10 0).prot_steps 0 = 133 ∧
      (setup_s globalsInit 10 10 0).ret_steps 0 = 22) ∧
    ((dispatch (setup_s globalsInit 10 10 0) (Cmd.whisk 0)).whisking_status 0 = 2 ∧
    ((dispatch (setup_s globalsInit 10 10 0) (Cmd.whisk 0)).steppers 0).target =
      (setup_s globalsInit 10 10 0).prot_steps 0 ∧
    ∃ n1 n2 : Nat, 0 < n1 ∧ n1 < n2 ∧
      (∀ k, k < n1 →
        (motionIter (dispatch (setup_s globalsInit 10 10 0) (Cmd.whisk 0)) k).whisking_status 0 = 2) ∧
      (∀ k, n1 ≤ k → k < n2 →
        (motionIter (dispatch (setup_s globalsInit 10 10 0) (Cmd.whisk 0)) k).whisking_status 0 = 1) ∧
      (∀ k, n1 ≤ k →
        ((motionIter (dispatch (setup_s globalsInit 10 10 0) (Cmd.whisk 0)) k).steppers 0).target =
          (setup_s globalsInit 10 10 0).ret_steps 0) ∧
      (∀ k, n2 ≤ k →
        (motionIter (dispatch (setup_s globalsInit 10 10 0) (Cmd.whisk 0)) k).whisking_status 0 = 0 ∧
        ((motionIter (dispatch (setup_s globalsInit 10 10 0) (Cmd.whisk 0)) k).steppers 0).pos =
          (setup_s globalsInit 10 10 0).ret_steps 0)) :=
  ⟨⟨by decide, by decide, by decide, by decide, by decide, by decide, by decide⟩,
    whisk_single_cycle (setup_s globalsInit 10 10 0) 0
      (by decide) (by decide) (by decide) (by decide) (by decide)⟩

/-- State after a sequence of bring-up s declarations, each carrying the
motor, whisker and side digit arguments. -/
def afterSetup (ds : List (Int × Int × Int)) : FW :=
  ds.foldl (fun s d => setup_s s d.1 d.2.1 d.2.2) globalsInit

theorem setup_s_preserves_targets (st : FW) (m w sd : Int) :
    (setup_s st m w sd).prot_steps = st.prot_steps ∧
    (setup_s st m w sd).ret_steps = st.ret_steps := by
  unfold setup_s
  dsimp only
  split_ifs <;> exact ⟨rfl, rfl⟩

theorem afterSetup_targets (ds : List (Int × Int × Int)) :
    (afterSetup ds).prot_steps = globalsInit.prot_steps ∧
    (afterSetup ds).ret_steps = globalsInit.ret_steps := by
  unfold afterSetup
  induction ds using List.reverseRecOn with
  | nil => exact ⟨rfl, rfl⟩
  | append_singleton ds d ih =>
      rw [List.foldl_append, List.foldl_cons, List.foldl_nil]
      obtain ⟨hp, hr⟩ := setup_s_preserves_targets
        (ds.foldl (fun s d => setup_s s d.1 d.2.1 d.2.2) globalsInit) d.1 d.2.1 d.2.2
      exact ⟨hp.trans ih.1, hr.trans ih.2⟩

/-- C10: bring-up never touches the whisk target arrays, so after any
sequence of s declarations only axis 0 carries the documented defaults
(prot_steps 0 = 133, ret_steps 0 = 22) while every other axis index starts
with both targets 0; consequently a whisk dispatched to an axis other than 0
before any set_prot or set_ret command issues a protraction move to position
0, and its retraction target is also 0. -/
theorem default_targets_axis0_only (ds : List (Int × Int × Int)) :
    (afterSetup ds).prot_steps 0 = 133 ∧
    (afterSetup ds).ret_steps 0 = 22 ∧
    (∀ i : Int, 1 ≤ i → i < MAX_STEPPERS →
      (afterSetup ds).prot_steps i = 0 ∧ (afterSetup ds).ret_steps i = 0) ∧
    (∀ i : Int, 1 ≤ i → i < MAX_STEPPERS →
      ((dispatch (afterSetup ds) (Cmd.whisk i)).steppers i).target = 0 ∧
      (dispatch (afterSetup ds) (Cmd.whisk i)).ret_steps i = 0) := by
  obtain ⟨hp, hr⟩ := afterSetup_targets ds
  have hpv : ∀ i : Int, (afterSetup ds).prot_steps i = if i = 0 then 133 else 0 := by
    intro i
    rw [hp]
    rfl
  have hrv : ∀ i : Int, (afterSetup ds).ret_steps i = if i = 0 then 22 else 0 := by
    intro i
    rw [hr]
    rfl
  refine ⟨by rw [hpv]; rfl, by rw [hrv]; rfl, ?_, ?_⟩
  · intro i h1 h2
    rw [hpv, hrv]
    have : ¬(i = 0) := by omega
    simp [this]
  · intro i h1 h2
    have hne : i ≠ ALL_FLAG := by
      rw [MAX_STEPPERS] at h2
      rw [ALL_FLAG]
      omega
    have htg := congrArg AxisLoc.target (dispatch_whisk_axisLoc (afterSetup ds) i hne)
    have hzero : (afterSetup ds).prot_steps i = 0 := by
      rw [hpv]
      have : ¬(i = 0) := by omega
      simp [this]
    refine ⟨htg.trans hzero, ?_⟩
    have hrq : (dispatch (afterSetup ds) (Cmd.whisk i)).ret_steps i =
        (afterSetup ds).ret_steps i := by
      simp [dispatch, hne]
    rw [hrq, hrv]
    have : ¬(i = 0) := by omega
    simp [this]

/-- Witness for C10: with the single declaration s 0 12 22 00 (two axes),
axis 0 keeps the defaults 133 / 22 while axis 1 has both targets 0 and a
whisk dispatched to axis 1 moves to position 0. -/
theorem default_targets_axis0_only_witness :
    (afterSetup [(12, 22, 0)]).prot_steps 0 = 133 ∧
    (afterSetup [(12, 22, 0)]).ret_steps 0 = 22 ∧
    ((1 : Int) ≤ 1 ∧ (1 : Int) < MAX_STEPPERS) ∧
    (afterSetup [(12, 22, 0)]).prot_steps 1 = 0 ∧
    (afterSetup [(12, 22, 0)]).ret_steps 1 = 0 ∧
    ((dispatch (afterSetup [(12, 22, 0)]) (Cmd.whisk 1)).steppers 1).target = 0 ∧
    (dispatch (afterSetup [(12, 22, 0)]) (Cmd.whisk 1)).ret_steps 1 = 0 :=
  ⟨(default_targets_axis0_only [(12, 22, 0)]).1,
   (default_targets_axis0_only [(12, 22, 0)]).2.1,
   ⟨by decide, by decide⟩,
   ((default_targets_axis0_only [(12, 22, 0)]).2.2.1 1 (by decide) (by decide)).1,
   ((default_targets_axis0_only [(12, 22, 0)]).2.2.1 1 (by decide) (by decide)).2,
   ((default_targets_axis0_only [(12, 22, 0)]).2.2.2 1 (by decide) (by decide)).1,
   ((default_targets_axis0_only [(12, 22, 0)]).2.2.2 1 (by decide) (by decide)).2⟩

theorem prot_broadcast_value (steps : Int) :
    ∀ (n : Nat) (st : FW) (a : Int),
      (((List.range n).foldl
        (fun (s : FW) (i : Nat) => { s with prot_steps := updInt s.prot_steps ((i : Int)) steps }) st).prot_steps a) =
      if 0 ≤ a ∧ a < (n : Int) then steps else st.prot_steps a := by
  intro n
  induction n with
  | zero =>
      intro st a
      exact (if_neg (by omega)).symm
  | succ n ih =>
      intro st a
      rw [List.range_succ, List.foldl_append, List.foldl_cons, List.foldl_nil]
      by_cases ha : a = (n : Int)
      · subst ha
        have hc2 : (0 : Int) ≤ (n : Int) ∧ (n : Int) < ((n + 1 : Nat) : Int) :=
          ⟨by omega, by omega⟩
        rw [if_pos hc2]
        simp [updInt]
      · have step : (((List.range n).foldl
            (fun (s : FW) (i : Nat) => { s with prot_steps := updInt s.prot_steps ((i : Int)) steps }) st).prot_steps) a
            = if 0 ≤ a ∧ a < (n : Int) then steps else st.prot_steps a := ih st a
        simp only [updInt, ha, if_false]
        rw [step]
        rcases Decidable.em (0 ≤ a ∧ a < (n : Int)) with h1 | h1
        · have hc2 : 0 ≤ a ∧ a < ((n + 1 : Nat) : Int) := ⟨h1.1, by omega⟩
          rw [if_pos h1, if_pos hc2]
        · have hc2 : ¬(0 ≤ a ∧ a < ((n + 1 : Nat) : Int)) := by
            intro hcl
            exact h1 ⟨hcl.1, by omega⟩
          rw [if_neg h1, if_neg hc2]

/-- C2: a set_prot or set_ret whose steps argument is ≤ 1 or ≥ MAX_STEPS is
silently dropped, for any axis id including the ALL sentinel: the entire
firmware state (hence every target and the output stream) is unchanged.
With 1 < steps < MAX_STEPS the named axis's target is assigned.  In the
spec scenario, set_prot ALL 150 followed by set_prot 0 5000 leaves the state
of the first command intact, with every declared axis's protraction target
at 150. -/
theorem set_target_bounds (st : FW) (a steps : Int) :
    ((steps ≤ 1 ∨ MAX_STEPS ≤ steps) →
      dispatch st (Cmd.set_prot a steps) = st ∧
      dispatch st (Cmd.set_ret a steps) = st) ∧
    ((1 < steps ∧ steps < MAX_STEPS) → a ≠ ALL_FLAG →
      (dispatch st (Cmd.set_prot a steps)).prot_steps a = steps ∧
      (dispatch st (Cmd.set_ret a steps)).ret_steps a = steps) ∧
    (dispatch (dispatch st (Cmd.set_prot ALL_FLAG 150)) (Cmd.set_prot 0 5000) =
      dispatch st (Cmd.set_prot ALL_FLAG 150)) ∧
    (∀ i : Int, 0 ≤ i → i < st.num_steppers →
      (dispatch (dispatch st (Cmd.set_prot ALL_FLAG 150)) (Cmd.set_prot 0 5000)).prot_steps i
        = 150) := by
  have h5 : ¬((5000 : Int) < MAX_STEPS ∧ (5000 : Int) > 1) := by decide
  have h150 : (150 : Int) < MAX_STEPS ∧ (150 : Int) > 1 := by decide
  have hsc : dispatch (dispatch st (Cmd.set_prot ALL_FLAG 150)) (Cmd.set_prot 0 5000) =
      dispatch st (Cmd.set_prot ALL_FLAG 150) := by
    simp only [dispatch]
    rw [if_neg h5]
  refine ⟨?_, ?_, hsc, ?_⟩
  · intro h
    have hc : ¬(steps < MAX_STEPS ∧ steps > 1) := by
      rcases h with h | h <;> omega
    constructor <;> (simp only [dispatch]; rw [if_neg hc])
  · intro hv hne
    have hc : steps < MAX_STEPS ∧ steps > 1 := ⟨hv.2, hv.1⟩
    constructor <;> (simp only [dispatch]; rw [if_pos hc, if_neg hne]; simp [updInt])
  · intro i hi0 hi
    rw [hsc]
    show (dispatch st (Cmd.set_prot ALL_FLAG 150)).prot_steps i = 150
    show ((List.range st.num_steppers.toNat).foldl
        (fun (s : FW) (i : Nat) => { s with prot_steps := updInt s.prot_steps ((i : Int)) 150 }) st).prot_steps i
      = 150
    rw [prot_broadcast_value 150 st.num_steppers.toNat st i]
    have hcond : 0 ≤ i ∧ i < ((st.num_steppers.toNat : Nat) : Int) := ⟨hi0, by omega⟩
    rw [if_pos hcond]

/-- Witness for C2: on the one-axis post-setup state, set_prot 0 0 and
set_ret 0 300 leave the state unchanged, set_prot 0 100 stores 100, and the
ALL 150 then 0 5000 scenario leaves axis 0's protraction target at 150. -/
theorem set_target_bounds_witness :
    (dispatch (setup_s globalsInit 10 10 0) (Cmd.set_prot 0 0) = setup_s globalsInit 10 10 0 ∧
      dispatch (setup_s globalsInit 10 10 0) (Cmd.set_ret 0 0) = setup_s globalsInit 10 10 0) ∧
    ((dispatch (setup_s globalsInit 10 10 0) (Cmd.set_prot 0 100)).prot_steps 0 = 100 ∧
      (dispatch (setup_s globalsInit 10 10 0) (Cmd.set_ret 0 100)).ret_steps 0 = 100) ∧
    (dispatch (dispatch (setup_s globalsInit 10 10 0) (Cmd.set_prot ALL_FLAG 150))
        (Cmd.set_prot 0 5000) =
      dispatch (setup_s globalsInit 10 10 0) (Cmd.set_prot ALL_FLAG 150)) ∧
    (dispatch (dispatch (setup_s globalsInit 10 10 0) (Cmd.set_prot ALL_FLAG 150))
        (Cmd.set_prot 0 5000)).prot_steps 0 = 150 :=
  ⟨(set_target_bounds (setup_s globalsInit 10 10 0) 0 0).1 (Or.inl (by decide)),
   (set_target_bounds (setup_s globalsInit 10 10 0) 0 100).2.1 (by decide) (by decide),
   (set_target_bounds (setup_s globalsInit 10 10 0) 0 100).2.2.1,
   (set_target_bounds (setup_s globalsInit 10 10 0) 0 100).2.2.2 0 (by decide) (by decide)⟩

section HaltLemmas

theorem dispatch_halt_num_steppers (st : FW) (a : Int) (h : a ≠ ALL_FLAG) :
    (dispatch st (Cmd.halt_whisk a)).num_steppers = st.num_steppers := by
  simp [dispatch, h]

theorem dispatch_halt_axisLoc (st : FW) (a : Int) (h : a ≠ ALL_FLAG) :
    (dispatch st (Cmd.halt_whisk a)).axisLoc a =
      { ws := 1, pos := (st.steppers a).pos, target := (st.steppers a).pos,
        ret := st.ret_steps a } := by
  simp [dispatch, h, FW.axisLoc, Stepper.stop, updInt, updStepper]

end HaltLemmas

/-- C3: halt_whisk on a declared axis stops the pending motion at once
(distance_to_go becomes 0, the old target is abandoned in favour of the
current position) and forces the phase to retracting (1) whatever the prior
phase was; on the next Main Cycle motion pass the axis transitions to idle
(0) with its position unchanged, rather than continuing toward the old
protraction target. -/
theorem halt_whisk_contract (st : FW) (a : Int)
    (h0 : 0 ≤ a) (hlt : a < st.num_steppers) (hall : a ≠ ALL_FLAG) :
    (dispatch st (Cmd.halt_whisk a)).whisking_status a = 1 ∧
    ((dispatch st (Cmd.halt_whisk a)).steppers a).distanceToGo = 0 ∧
    ((dispatch st (Cmd.halt_whisk a)).steppers a).target = (st.steppers a).pos ∧
    (motionPass (dispatch st (Cmd.halt_whisk a))).whisking_status a = 0 ∧
    ((motionPass (dispatch st (Cmd.halt_whisk a))).steppers a).pos = (st.steppers a).pos ∧
    ((motionPass (dispatch st (Cmd.halt_whisk a))).steppers a).target = (st.steppers a).pos := by
  have hloc := dispatch_halt_axisLoc st a hall
  have e1 : ((dispatch st (Cmd.halt_whisk a)).steppers a).target = (st.steppers a).pos :=
    congrArg AxisLoc.target hloc
  have e2 : ((dispatch st (Cmd.halt_whisk a)).steppers a).pos = (st.steppers a).pos :=
    congrArg AxisLoc.pos hloc
  have hnum := dispatch_halt_num_steppers st a hall
  have hm := motionPass_axisLoc (dispatch st (Cmd.halt_whisk a)) a h0 (by omega)
  rw [hloc] at hm
  rw [axStep_to_idle _ rfl (by show (st.steppers a).pos - (st.steppers a).pos = 0; omega)] at hm
  refine ⟨congrArg AxisLoc.ws hloc, ?_, e1, ?_, ?_, ?_⟩
  · rw [Stepper.distanceToGo, e1, e2]
    omega
  · exact congrArg AxisLoc.ws hm
  · exact congrArg AxisLoc.pos hm
  · exact congrArg AxisLoc.target hm

/-- Witness for C3: on the one-axis post-setup state mid-protraction
(whisk 0 then one motion pass, so phase is 2 with distance remaining),
halt_whisk 0 yields phase 1 with no distance to go, and the next motion pass
reaches idle at the unchanged position. -/
theorem halt_whisk_contract_witness :
    ((0 : Int) ≤ 0 ∧
      (0 : Int) < (motionPass (dispatch (setup_s globalsInit 10 10 0) (Cmd.whisk 0))).num_steppers ∧
      (0 : Int) ≠ ALL_FLAG ∧
      (motionPass (dispatch (setup_s globalsInit 10 10 0) (Cmd.whisk 0))).whisking_status 0 = 2 ∧
      ((motionPass (dispatch (setup_s globalsInit 10 10 0) (Cmd.whisk 0))).steppers 0).distanceToGo ≠ 0) ∧
    ((dispatch (motionPass (dispatch (setup_s globalsInit 10 10 0) (Cmd.whisk 0)))
        (Cmd.halt_whisk 0)).whisking_status 0 = 1 ∧
     ((dispatch (motionPass (dispatch (setup_s globalsInit 10 10 0) (Cmd.whisk 0)))
        (Cmd.halt_whisk 0)).steppers 0).distanceToGo = 0 ∧
     ((dispatch (motionPass (dispatch (setup_s globalsInit 10 10 0) (Cmd.whisk 0)))
        (Cmd.halt_whisk 0)).steppers 0).target =
       ((motionPass (dispatch (setup_s globalsInit 10 10 0) (Cmd.whisk 0))).steppers 0).pos ∧
     (motionPass (dispatch (motionPass (dispatch (setup_s globalsInit 10 10 0) (Cmd.whisk 0)))
        (Cmd.halt_whisk 0))).whisking_status 0 = 0 ∧
     ((motionPass (dispatch (motionPass (dispatch (setup_s globalsInit 10 10 0) (Cmd.whisk 0)))
        (Cmd.halt_whisk 0))).steppers 0).pos =
       ((motionPass (dispatch (setup_s globalsInit 10 10 0) (Cmd.whisk 0))).steppers 0).pos ∧
     ((motionPass (dispatch (motionPass (dispatch (setup_s globalsInit 10 10 0) (Cmd.whisk 0)))
        (Cmd.halt_whisk 0))).steppers 0).target =
       ((motionPass (dispatch (setup_s globalsInit 10 10 0) (Cmd.whisk 0))).steppers 0).pos) :=
  ⟨⟨by decide, by decide, by decide, by decide, by decide⟩,
   halt_whisk_contract (motionPass (dispatch (setup_s globalsInit 10 10 0) (Cmd.whisk 0))) 0
     (by decide) (by decide) (by decide)⟩

/-- C9: no run-time per-axis command validates its axis argument against the
declared axis count.  For any axis id that is neither the ALL sentinel nor a
declared index (negative or at least num_steppers), every per-axis command
still applies its single-axis effect at that index: the corresponding array
slot is written (set_prot, set_ret, whisk, halt_whisk, retract phases and
targets, set_speed and set_accel limits, home_stepper position) instead of
the command being dropped. -/
theorem no_axis_validation (st : FW) (sid v : Int)
    (hall : sid ≠ ALL_FLAG) (hout : sid < 0 ∨ st.num_steppers ≤ sid)
    (hv : 1 < v ∧ v < MAX_STEPS) :
    (dispatch st (Cmd.set_prot sid v)).prot_steps sid = v ∧
    (dispatch st (Cmd.set_ret sid v)).ret_steps sid = v ∧
    ((dispatch st (Cmd.set_speed sid v)).steppers sid).maxSpeed = v ∧
    ((dispatch st (Cmd.set_accel sid v)).steppers sid).accel = v ∧
    (dispatch st (Cmd.whisk sid)).whisking_status sid = 2 ∧
    ((dispatch st (Cmd.whisk sid)).steppers sid).target = st.prot_steps sid ∧
    (dispatch st (Cmd.halt_whisk sid)).whisking_status sid = 1 ∧
    (dispatch st (Cmd.retract sid)).whisking_status sid = 1 ∧
    ((dispatch st (Cmd.retract sid)).steppers sid).target = st.ret_steps sid ∧
    ((dispatch st (Cmd.home_stepper sid)).steppers sid).pos = 0 := by
  obtain ⟨hv1, hv2⟩ := hv
  have hc : v < MAX_STEPS ∧ v > 1 := ⟨hv2, hv1⟩
  refine ⟨?_, ?_, ?_, ?_, ?_, ?_, ?_, ?_, ?_, ?_⟩ <;>
    simp [dispatch, hall, hc, updInt, updStepper, Stepper.setMaxSpeed,
      Stepper.setAcceleration, Stepper.moveTo, Stepper.stop, Stepper.setCurrentPosition]

/-- Witness for C9: the axis id 500 is out of range for the one-axis
post-setup state (num_steppers = 1) yet every per-axis command writes slot
500. -/
theorem no_axis_validation_witness :
    ((500 : Int) ≠ ALL_FLAG ∧
      ((500 : Int) < 0 ∨ (setup_s globalsInit 10 10 0).num_steppers ≤ 500) ∧
      ((1 : Int) < 100 ∧ (100 : Int) < MAX_STEPS)) ∧
    ((dispatch (setup_s globalsInit 10 10 0) (Cmd.set_prot 500 100)).prot_steps 500 = 100 ∧
     (dispatch (setup_s globalsInit 10 10 0) (Cmd.set_ret 500 100)).ret_steps 500 = 100 ∧
     ((dispatch (setup_s globalsInit 10 10 0) (Cmd.set_speed 500 100)).steppers 500).maxSpeed = 100 ∧
     ((dispatch (setup_s globalsInit 10 10 0) (Cmd.set_accel 500 100)).steppers 500).accel = 100 ∧
     (dispatch (setup_s globalsInit 10 10 0) (Cmd.whisk 500)).whisking_status 500 = 2 ∧
     ((dispatch (setup_s globalsInit 10 10 0) (Cmd.whisk 500)).steppers 500).target =
       (setup_s globalsInit 10 10 0).prot_steps 500 ∧
     (dispatch (setup_s globalsInit 10 10 0) (Cmd.halt_whisk 500)).whisking_status 500 = 1 ∧
     (dispatch (setup_s globalsInit 10 10 0) (Cmd.retract 500)).whisking_status 500 = 1 ∧
     ((dispatch (setup_s globalsInit 10 10 0) (Cmd.retract 500)).steppers 500).target =
       (setup_s globalsInit 10 10 0).ret_steps 500 ∧
     ((dispatch (setup_s globalsInit 10 10 0) (Cmd.home_stepper 500)).steppers 500).pos = 0) :=
  ⟨⟨by decide, Or.inr (by decide), ⟨by decide, by decide⟩⟩,
   no_axis_validation (setup_s globalsInit 10 10 0) 500 100
     (by decide) (Or.inr (by decide)) ⟨by decide, by decide⟩⟩

theorem per_axis_ne_all (st : FW) (hn : st.num_steppers ≤ 999) (i : Nat)
    (hi : i ∈ List.range st.num_steppers.toNat) : ((i : Int)) ≠ ALL_FLAG := by
  rw [List.mem_range] at hi
  have hALL : (ALL_FLAG : Int) = 999 := rfl
  intro h
  rw [hALL] at h
  omega

theorem speed_broadcast_value (v : Int) :
    ∀ (n : Nat) (st : FW) (a : Int),
      (((List.range n).foldl
        (fun (s : FW) (i : Nat) =>
          let w := (s.steppers ((i : Int))).setMaxSpeed v
          { s with steppers := updStepper s.steppers ((i : Int)) w }) st).steppers a) =
      if 0 ≤ a ∧ a < (n : Int) then (st.steppers a).setMaxSpeed v else st.steppers a := by
  intro n
  induction n with
  | zero =>
      intro st a
      exact (if_neg (by omega)).symm
  | succ n ih =>
      intro st a
      rw [List.range_succ, List.foldl_append, List.foldl_cons, List.foldl_nil]
      show updStepper _ ((n : Int)) _ a = _
      by_cases ha : a = (n : Int)
      · subst ha
        have hc2 : (0 : Int) ≤ (n : Int) ∧ (n : Int) < ((n + 1 : Nat) : Int) :=
          ⟨by omega, by omega⟩
        rw [if_pos hc2, updStepper]
        simp only [if_pos rfl]
        rw [ih st ((n : Int))]
        have hno : ¬((0 : Int) ≤ (n : Int) ∧ (n : Int) < (n : Int)) := by omega
        simp [hno]
      · rw [updStepper]
        simp only [ha, if_false]
        rw [ih st a]
        rcases Decidable.em (0 ≤ a ∧ a < (n : Int)) with h1 | h1
        · have hc2 : 0 ≤ a ∧ a < ((n + 1 : Nat) : Int) := ⟨h1.1, by omega⟩
          rw [if_pos h1, if_pos hc2]
        · have hc2 : ¬(0 ≤ a ∧ a < ((n + 1 : Nat) : Int)) := by
            intro hcl
            exact h1 ⟨hcl.1, by omega⟩
          rw [if_neg h1, if_neg hc2]

/-- C6: dispatching any per-axis command with the ALL sentinel (999) yields
exactly the state obtained by dispatching the same command with each declared
axis id 0, 1, ..., num_steppers-1 in order; in particular set_speed ALL v
leaves every declared axis's maximum-speed limit equal to v, and within one
Main Cycle iteration of loop() all pending commands are dispatched before
the motion-advance pass runs. -/
theorem broadcast_equals_per_axis (st : FW) (v : Int) (hn : st.num_steppers ≤ 999) :
    (dispatch st (Cmd.set_prot ALL_FLAG v) =
      (List.range st.num_steppers.toNat).foldl
        (fun (s : FW) (i : Nat) => dispatch s (Cmd.set_prot ((i : Int)) v)) st) ∧
    (dispatch st (Cmd.set_ret ALL_FLAG v) =
      (List.range st.num_steppers.toNat).foldl
        (fun (s : FW) (i : Nat) => dispatch s (Cmd.set_ret ((i : Int)) v)) st) ∧
    (dispatch st (Cmd.set_speed ALL_FLAG v) =
      (List.range st.num_steppers.toNat).foldl
        (fun (s : FW) (i : Nat) => dispatch s (Cmd.set_speed ((i : Int)) v)) st) ∧
    (dispatch st (Cmd.set_accel ALL_FLAG v) =
      (List.range st.num_steppers.toNat).foldl
        (fun (s : FW) (i : Nat) => dispatch s (Cmd.set_accel ((i : Int)) v)) st) ∧
    (dispatch st (Cmd.whisk ALL_FLAG) =
      (List.range st.num_steppers.toNat).foldl
        (fun (s : FW) (i : Nat) => dispatch s (Cmd.whisk ((i : Int)))) st) ∧
    (dispatch st (Cmd.home_stepper ALL_FLAG) =
      (List.range st.num_steppers.toNat).foldl
        (fun (s : FW) (i : Nat) => dispatch s (Cmd.home_stepper ((i : Int)))) st) ∧
    (dispatch st (Cmd.halt_whisk ALL_FLAG) =
      (List.range st.num_steppers.toNat).foldl
        (fun (s : FW) (i : Nat) => dispatch s (Cmd.halt_whisk ((i : Int)))) st) ∧
    (dispatch st (Cmd.retract ALL_FLAG) =
      (List.range st.num_steppers.toNat).foldl
        (fun (s : FW) (i : Nat) => dispatch s (Cmd.retract ((i : Int)))) st) ∧
    (∀ i : Nat, i < st.num_steppers.toNat →
      ((dispatch st (Cmd.set_speed ALL_FLAG v)).steppers ((i : Int))).maxSpeed = v) ∧
    (∀ cmds : List Cmd, loopIteration cmds st = motionPass (cmds.foldl dispatch st)) := by
  refine ⟨?_, ?_, ?_, ?_, ?_, ?_, ?_, ?_, ?_, fun _ => rfl⟩
  · by_cases hg : v < MAX_STEPS ∧ v > 1
    · have hunfold : dispatch st (Cmd.set_prot ALL_FLAG v) =
          if v < MAX_STEPS ∧ v > 1 then
            (List.range st.num_steppers.toNat).foldl
              (fun (s : FW) (i : Nat) => { s with prot_steps := updInt s.prot_steps ((i : Int)) v }) st
          else st := rfl
      rw [hunfold, if_pos hg]
      exact (List.foldl_ext _ _ st (by
        intro s i hi
        simp [dispatch, per_axis_ne_all st hn i hi, hg.1, hg.2])).symm
    · have hconst : (List.range st.num_steppers.toNat).foldl
          (fun (s : FW) (i : Nat) => dispatch s (Cmd.set_prot ((i : Int)) v)) st =
          (List.range st.num_steppers.toNat).foldl (fun (s : FW) (_ : Nat) => s) st :=
        List.foldl_ext _ _ st (by intro s i hi; simp [dispatch, hg])
      rw [hconst, List.foldl_fixed]
      simp [dispatch, hg]
  · by_cases hg : v < MAX_STEPS ∧ v > 1
    · have hunfold : dispatch st (Cmd.set_ret ALL_FLAG v) =
          if v < MAX_STEPS ∧ v > 1 then
            (List.range st.num_steppers.toNat).foldl
              (fun (s : FW) (i : Nat) => { s with ret_steps := updInt s.ret_steps ((i : Int)) v }) st
          else st := rfl
      rw [hunfold, if_pos hg]
      exact (List.foldl_ext _ _ st (by
        intro s i hi
        simp [dispatch, per_axis_ne_all st hn i hi, hg.1, hg.2])).symm
    · have hconst : (List.range st.num_steppers.toNat).foldl
          (fun (s : FW) (i : Nat) => dispatch s (Cmd.set_ret ((i : Int)) v)) st =
          (List.range st.num_steppers.toNat).foldl (fun (s : FW) (_ : Nat) => s) st :=
        List.foldl_ext _ _ st (by intro s i hi; simp [dispatch, hg])
      rw [hconst, List.foldl_fixed]
      simp [dispatch, hg]
  · show (List.range st.num_steppers.toNat).foldl
        (fun (s : FW) (i : Nat) =>
          let w := (s.steppers ((i : Int))).setMaxSpeed v
          { s with steppers := updStepper s.steppers ((i : Int)) w }) st = _
    exact (List.foldl_ext _ _ st (by
      intro s i hi
      simp [dispatch, per_axis_ne_all st hn i hi])).symm
  · show (List.range st.num_steppers.toNat).foldl
        (fun (s : FW) (i : Nat) =>
          let w := (s.steppers ((i : Int))).setAcceleration v
          { s with steppers := updStepper s.steppers ((i : Int)) w }) st = _
    exact (List.foldl_ext _ _ st (by
      intro s i hi
      simp [dispatch, per_axis_ne_all st hn i hi])).symm
  · have hunfold : dispatch st (Cmd.whisk ALL_FLAG) =
        (List.range st.num_steppers.toNat).foldl
          (fun (s : FW) (i : Nat) =>
            let s1 := { s with whisking_status := updInt s.whisking_status ((i : Int)) 2 }
            let w := (s1.steppers ((i : Int))).moveTo (s1.prot_steps ((i : Int)))
            { s1 with steppers := updStepper s1.steppers ((i : Int)) w }) st := rfl
    rw [hunfold]
    exact (List.foldl_ext _ _ st (by
      intro s i hi
      simp [dispatch, per_axis_ne_all st hn i hi])).symm
  · show (List.range st.num_steppers.toNat).foldl
        (fun (s : FW) (i : Nat) =>
          let w := (s.steppers ((i : Int))).setCurrentPosition 0
          { s with steppers := updStepper s.steppers ((i : Int)) w }) st = _
    exact (List.foldl_ext _ _ st (by
      intro s i hi
      simp [dispatch, per_axis_ne_all st hn i hi])).symm
  · have hunfold : dispatch st (Cmd.halt_whisk ALL_FLAG) =
        (List.range st.num_steppers.toNat).foldl
          (fun (s : FW) (i : Nat) =>
            let s1 := { s with steppers := updStepper s.steppers ((i : Int)) ((s.steppers ((i : Int))).stop) }
            { s1 with whisking_status := updInt s1.whisking_status ((i : Int)) 1 }) st := rfl
    rw [hunfold]
    exact (List.foldl_ext _ _ st (by
      intro s i hi
      simp [dispatch, per_axis_ne_all st hn i hi])).symm
  · have hunfold : dispatch st (Cmd.retract ALL_FLAG) =
        (List.range st.num_steppers.toNat).foldl
          (fun (s : FW) (i : Nat) =>
            let w := (s.steppers ((i : Int))).moveTo (s.ret_steps ((i : Int)))
            let s1 := { s with steppers := updStepper s.steppers ((i : Int)) w }
            { s1 with whisking_status := updInt s1.whisking_status ((i : Int)) 1 }) st := rfl
    rw [hunfold]
    exact (List.foldl_ext _ _ st (by
      intro s i hi
      simp [dispatch, per_axis_ne_all st hn i hi])).symm
  · intro i hi
    show (((List.range st.num_steppers.toNat).foldl
        (fun (s : FW) (i : Nat) =>
          let w := (s.steppers ((i : Int))).setMaxSpeed v
          { s with steppers := updStepper s.steppers ((i : Int)) w }) st).steppers ((i : Int))).maxSpeed
      = v
    rw [speed_broadcast_value v st.num_steppers.toNat st ((i : Int))]
    have hcond : 0 ≤ ((i : Int)) ∧ ((i : Int)) < ((st.num_steppers.toNat : Nat) : Int) :=
      ⟨by omega, by omega⟩
    rw [if_pos hcond]
    rfl

/-- Witness for C6: on the two-axis post-setup state the broadcast form of
each command equals the in-order per-axis fold, and set_speed ALL 777 sets
both axes' maximum speed to 777. -/
theorem broadcast_equals_per_axis_witness :
    ((setup_s globalsInit 12 22 0).num_steppers ≤ 999) ∧
    (dispatch (setup_s globalsInit 12 22 0) (Cmd.set_prot ALL_FLAG 77) =
      (List.range (setup_s globalsInit 12 22 0).num_steppers.toNat).foldl
        (fun (s : FW) (i : Nat) => dispatch s (Cmd.set_prot ((i : Int)) 77))
        (setup_s globalsInit 12 22 0)) ∧
    (dispatch (setup_s globalsInit 12 22 0) (Cmd.whisk ALL_FLAG) =
      (List.range (setup_s globalsInit 12 22 0).num_steppers.toNat).foldl
        (fun (s : FW) (i : Nat) => dispatch s (Cmd.whisk ((i : Int))))
        (setup_s globalsInit 12 22 0)) ∧
    ((dispatch (setup_s globalsInit 12 22 0) (Cmd.set_speed ALL_FLAG 777)).steppers 0).maxSpeed = 777 ∧
    ((dispatch (setup_s globalsInit 12 22 0) (Cmd.set_speed ALL_FLAG 777)).steppers 1).maxSpeed = 777 :=
  ⟨by decide,
   (broadcast_equals_per_axis (setup_s globalsInit 12 22 0) 77 (by decide)).1,
   (broadcast_equals_per_axis (setup_s globalsInit 12 22 0) 77 (by decide)).2.2.2.2.1,
   (broadcast_equals_per_axis (setup_s globalsInit 12 22 0) 777 (by decide)).2.2.2.2.2.2.2.2.1 0 (by decide),
   (broadcast_equals_per_axis (setup_s globalsInit 12 22 0) 777 (by decide)).2.2.2.2.2.2.2.2.1 1 (by decide)⟩

section IsrLemmas

theorem isrLineStep_fields (millis analog : Nat → Int) (st : FW) (i : Nat) :
    (isrLineStep millis analog st i).whisker_col_id = st.whisker_col_id ∧
    (isrLineStep millis analog st i).whisking_status = st.whisking_status ∧
    (isrLineStep millis analog st i).steppers = st.steppers ∧
    (isrLineStep millis analog st i).serialOut =
      st.serialOut ++ [isrLine millis analog st i] :=
  ⟨rfl, rfl, rfl, rfl⟩

theorem isrLine_congr (millis analog : Nat → Int) (st st2 : FW)
    (h1 : st2.whisker_col_id = st.whisker_col_id)
    (h2 : st2.whisking_status = st.whisking_status)
    (h3 : st2.steppers = st.steppers) :
    isrLine millis analog st2 = isrLine millis analog st := by
  funext i
  simp [isrLine, h1, h2, h3]

theorem isr_fold (millis analog : Nat → Int) :
    ∀ (n : Nat) (st : FW),
      ((List.range n).foldl (isrLineStep millis analog) st).whisker_col_id
        = st.whisker_col_id ∧
      ((List.range n).foldl (isrLineStep millis analog) st).whisking_status
        = st.whisking_status ∧
      ((List.range n).foldl (isrLineStep millis analog) st).steppers = st.steppers ∧
      ((List.range n).foldl (isrLineStep millis analog) st).serialOut =
        st.serialOut ++ (List.range n).map (isrLine millis analog st) := by
  intro n
  induction n with
  | zero =>
      intro st
      exact ⟨rfl, rfl, rfl, by simp⟩
  | succ n ih =>
      intro st
      obtain ⟨i1, i2, i3, i4⟩ := ih st
      rw [List.range_succ, List.foldl_append, List.foldl_cons, List.foldl_nil]
      obtain ⟨f1, f2, f3, f4⟩ :=
        isrLineStep_fields millis analog ((List.range n).foldl (isrLineStep millis analog) st) n
      refine ⟨f1.trans i1, f2.trans i2, f3.trans i3, ?_⟩
      rw [f4, i4, isrLine_congr millis analog st _ i1 i2 i3]
      simp

end IsrLemmas

/-- C4: a sampling-timer tick with the global sampling flag 0 emits nothing
and leaves the entire state untouched; with the flag nonzero it appends to
the serial stream exactly one line per declared whisker (num_whiskers
lines), each line being the six fields timestamp, channel id, owning axis
id, axis phase, axis position and raw sensor reading in that fixed order,
and under the hypothesis that the time source is frozen during the handler
every line of the tick carries the identical timestamp. -/
theorem sampling_isr_contract (millis analog : Nat → Int) (st : FW)
    (hfrozen : ∀ n, millis n = millis 0) :
    (st.sampling = 0 → timerIsr millis analog st = st) ∧
    (st.sampling ≠ 0 →
      (timerIsr millis analog st).serialOut =
        st.serialOut ++ (List.range st.num_whiskers.toNat).map (isrLine millis analog st) ∧
      ((List.range st.num_whiskers.toNat).map (isrLine millis analog st)).length =
        st.num_whiskers.toNat) ∧
    (∀ i : Nat, isrLine millis analog st i =
      [millis i, ((i : Int)), st.whisker_col_id ((i : Int)),
       st.whisking_status (st.whisker_col_id ((i : Int))),
       (st.steppers (st.whisker_col_id ((i : Int)))).pos, analog i]) ∧
    (∀ i : Nat, (isrLine millis analog st i).length = 6) ∧
    (∀ i : Nat, (isrLine millis analog st i).head? = some (millis 0)) := by
  refine ⟨?_, ?_, fun i => rfl, fun i => rfl, ?_⟩
  · intro h
    rw [timerIsr, if_neg (by simp [h])]
  · intro h
    rw [timerIsr, if_pos h]
    exact ⟨(isr_fold millis analog st.num_whiskers.toNat st).2.2.2, by simp⟩
  · intro i
    rw [isrLine, hfrozen i]
    rfl

/-- Witness for C4: a two-whisker two-axis state with sampling enabled and a
frozen clock emits exactly two six-field lines with equal timestamps. -/
theorem sampling_isr_contract_witness :
    ((∀ n : Nat, (fun _ : Nat => (5 : Int)) n = (fun _ : Nat => (5 : Int)) 0) ∧
      (dispatch (setup_s globalsInit 12 22 0) (Cmd.set_sampling 1)).sampling ≠ 0) ∧
    ((timerIsr (fun _ => 5) (fun n => ((n : Int)) + 40)
        (dispatch (setup_s globalsInit 12 22 0) (Cmd.set_sampling 1))).serialOut =
      (dispatch (setup_s globalsInit 12 22 0) (Cmd.set_sampling 1)).serialOut ++
        (List.range (dispatch (setup_s globalsInit 12 22 0)
          (Cmd.set_sampling 1)).num_whiskers.toNat).map
          (isrLine (fun _ => 5) (fun n => ((n : Int)) + 40)
            (dispatch (setup_s globalsInit 12 22 0) (Cmd.set_sampling 1))) ∧
      ((List.range (dispatch (setup_s globalsInit 12 22 0)
          (Cmd.set_sampling 1)).num_whiskers.toNat).map
          (isrLine (fun _ => 5) (fun n => ((n : Int)) + 40)
            (dispatch (setup_s globalsInit 12 22 0) (Cmd.set_sampling 1)))).length =
        (dispatch (setup_s globalsInit 12 22 0) (Cmd.set_sampling 1)).num_whiskers.toNat) ∧
    (∀ i : Nat, (isrLine (fun _ => 5) (fun n => ((n : Int)) + 40)
        (dispatch (setup_s globalsInit 12 22 0) (Cmd.set_sampling 1)) i).length = 6) ∧
    (∀ i : Nat, (isrLine (fun _ => 5) (fun n => ((n : Int)) + 40)
        (dispatch (setup_s globalsInit 12 22 0) (Cmd.set_sampling 1)) i).head? = some 5) :=
  ⟨⟨fun _ => rfl, by decide⟩,
   (sampling_isr_contract (fun _ => 5) (fun n => ((n : Int)) + 40)
      (dispatch (setup_s globalsInit 12 22 0) (Cmd.set_sampling 1)) (fun _ => rfl)).2.1
      (by decide),
   (sampling_isr_contract (fun _ => 5) (fun n => ((n : Int)) + 40)
      (dispatch (setup_s globalsInit 12 22 0) (Cmd.set_sampling 1)) (fun _ => rfl)).2.2.2.1,
   (sampling_isr_contract (fun _ => 5) (fun n => ((n : Int)) + 40)
      (dispatch (setup_s globalsInit 12 22 0) (Cmd.set_sampling 1)) (fun _ => rfl)).2.2.2.2⟩

section HomingLemmas

theorem home_run_none (limit : Nat → Bool) (leftFlag : Int)
    (hall : ∀ n, limit n = true) :
    ∀ fuel k, home_stepper_run limit leftFlag fuel k = none := by
  intro fuel
  induction fuel with
  | zero => intro k; rfl
  | succ fuel ih =>
      intro k
      simp [home_stepper_run, hall k, ih (k + 1)]

theorem home_run_terminates (limit : Nat → Bool) (leftFlag : Int) :
    ∀ (fuel k n : Nat), limit n = false → k ≤ n → n < k + fuel →
      (home_stepper_run limit leftFlag fuel k).isSome := by
  intro fuel
  induction fuel with
  | zero => intro k n _ _ h; omega
  | succ fuel ih =>
      intro k n hn hk hlt
      by_cases hb : limit k = true
      · have hkn : k ≠ n := by
          intro h
          rw [h, hn] at hb
          exact Bool.noConfusion hb
        simp only [home_stepper_run, hb, if_true, Option.isSome_map']
        exact ih (k + 1) n hn (by omega) (by omega)
      · simp [home_stepper_run, hb]

theorem home_run_isSome_exists (limit : Nat → Bool) (leftFlag : Int) :
    ∀ (fuel k : Nat), (home_stepper_run limit leftFlag fuel k).isSome →
      ∃ n, limit n = false := by
  intro fuel
  induction fuel with
  | zero => intro k h; exact absurd h (by simp [home_stepper_run])
  | succ fuel ih =>
      intro k h
      by_cases hb : limit k = true
      · simp only [home_stepper_run, hb, if_true, Option.isSome_map'] at h
        exact ih (k + 1) h
      · exact ⟨k, by simpa using hb⟩

theorem home_run_trace (limit : Nat → Bool) (leftFlag : Int) :
    ∀ (fuel k : Nat) (tr : List (StepDir × Nat)),
      home_stepper_run limit leftFlag fuel k = some tr →
      (∀ x ∈ tr, x = (homeDir leftFlag, 25)) ∧
      limit (k + tr.length) = false ∧
      (∀ j, j < tr.length → limit (k + j) = true) := by
  intro fuel
  induction fuel with
  | zero => intro k tr h; exact absurd h (by simp [home_stepper_run])
  | succ fuel ih =>
      intro k tr h
      by_cases hb : limit k = true
      · simp only [home_stepper_run, hb, if_true, Option.map_eq_some'] at h
        obtain ⟨tr0, h0, rfl⟩ := h
        obtain ⟨p1, p2, p3⟩ := ih (k + 1) tr0 h0
        refine ⟨?_, ?_, ?_⟩
        · intro x hx
          rcases List.mem_cons.mp hx with hx | hx
          · exact hx
          · exact p1 x hx
        · have harith : k + ((homeDir leftFlag, 25) :: tr0).length = (k + 1) + tr0.length := by
            simp
            omega
          rw [harith]
          exact p2
        · intro j hj
          cases j with
          | zero => simpa using hb
          | succ j =>
              have harith : k + (j + 1) = (k + 1) + j := by omega
              rw [harith]
              exact p3 j (by simpa using hj)
      · simp only [home_stepper_run] at h
        rw [if_neg hb] at h
        injection h with h
        subst h
        refine ⟨by simp, by simpa using hb, by simp⟩

end HomingLemmas

/-- C7: the homing routine for one axis issues exactly one single low-level
step per loop pass, always in the direction selected by the orientation
flag, each followed by the fixed 25 ms settling delay; it terminates exactly
when some limit-sensor read reports triggered (the step count equals the
index of the first triggered read, every earlier read being untriggered),
upon termination the axis's position reference is zeroed, and if the sensor
never triggers the loop runs forever (no fuel suffices; there is no timeout
or bounded retry). -/
theorem home_stepper_routine (limit : Nat → Bool) (leftFlag : Int) :
    ((∃ n, limit n = false) ↔
      ∃ fuel, (home_stepper_run limit leftFlag fuel 0).isSome) ∧
    (∀ (fuel : Nat) (tr : List (StepDir × Nat)),
      home_stepper_run limit leftFlag fuel 0 = some tr →
      (∀ x ∈ tr, x = (homeDir leftFlag, 25)) ∧
      limit tr.length = false ∧
      (∀ j, j < tr.length → limit j = true)) ∧
    ((∀ n, limit n = true) →
      ∀ fuel, home_stepper_run limit leftFlag fuel 0 = none) ∧
    (∀ (st : FW) (sid : Int) (fuel : Nat) (st2 : FW),
      st.is_left sid = leftFlag →
      home_stepper_model st sid limit fuel = some st2 →
      (st2.steppers sid).pos = 0 ∧ (st2.steppers sid).target = 0) := by
  refine ⟨⟨?_, ?_⟩, ?_, ?_, ?_⟩
  · rintro ⟨n, hn⟩
    exact ⟨n + 1, home_run_terminates limit leftFlag (n + 1) 0 n hn (by omega) (by omega)⟩
  · rintro ⟨fuel, hs⟩
    exact home_run_isSome_exists limit leftFlag fuel 0 hs
  · intro fuel tr h
    obtain ⟨p1, p2, p3⟩ := home_run_trace limit leftFlag fuel 0 tr h
    exact ⟨p1, by simpa using p2, fun j hj => by simpa using p3 j hj⟩
  · intro hall fuel
    exact home_run_none limit leftFlag hall fuel 0
  · intro st sid fuel st2 _ h
    rw [home_stepper_model] at h
    rcases hx : home_stepper_run limit (st.is_left sid) fuel 0 with _ | tr
    · rw [hx] at h
      exact absurd h (by simp)
    · rw [hx] at h
      simp only [Option.map_some', Option.some_inj] at h
      subst h
      constructor <;> simp [updStepper, Stepper.setCurrentPosition]

/-- Witness for C7: a sensor that reads HIGH for the first three passes and
LOW on the fourth makes the routine issue exactly three forward single steps
with 25 ms delays and stop; homing the one declared axis with that sensor
zeroes its position reference. -/
theorem home_stepper_routine_witness :
    (home_stepper_run (fun n => decide (n < 3)) 1 10 0 =
      some [(homeDir 1, 25), (homeDir 1, 25), (homeDir 1, 25)]) ∧
    ((∀ x ∈ [(homeDir 1, 25), (homeDir 1, 25), (homeDir 1, 25)], x = (homeDir 1, 25)) ∧
      (fun n => decide (n < 3))
        ([(homeDir 1, 25), (homeDir 1, 25), (homeDir 1, 25)] :
          List (StepDir × Nat)).length = false ∧
      (∀ j, j < ([(homeDir 1, 25), (homeDir 1, 25), (homeDir 1, 25)] :
          List (StepDir × Nat)).length → (fun n => decide (n < 3)) j = true)) ∧
    (∀ st2 : FW,
      (setup_s globalsInit 10 10 0).is_left 0 = 1 →
      home_stepper_model (setup_s globalsInit 10 10 0) 0 (fun n => decide (n < 3)) 10
        = some st2 →
      (st2.steppers 0).pos = 0 ∧ (st2.steppers 0).target = 0) :=
  ⟨by decide,
   (home_stepper_routine (fun n => decide (n < 3)) 1).2.1 10
     [(homeDir 1, 25), (homeDir 1, 25), (homeDir 1, 25)] (by decide),
   fun st2 hleft h =>
     (home_stepper_routine (fun n => decide (n < 3)) 1).2.2.2
       (setup_s globalsInit 10 10 0) 0 10 st2 hleft h⟩

section ParseLemmas

theorem parseTokens_length_le (m : Nat) :
    ∀ (fuel : Nat) (l : List Char) (c : Nat), c < m - 1 →
      (parseTokens m fuel l c).length + c ≤ m - 1 := by
  intro fuel
  induction fuel with
  | zero =>
      intro l c h
      simp [parseTokens]
      omega
  | succ fuel ih =>
      intro l c h
      cases l with
      | nil =>
          simp [parseTokens]
          omega
      | cons a as =>
          by_cases hb : c + 1 = m - 1
          · simp only [parseTokens, hb, if_true, List.length_singleton]
            omega
          · simp only [parseTokens, hb, if_false, List.length_cons]
            have := ih ((a :: as).dropWhile isDelim |>.dropWhile (fun d => !(isDelim d)))
              (c + 1) (by omega)
            omega

end ParseLemmas

/-- Counterexample for C8 as stated: parse is called with
maxArgs = sizeof(argument_words) = 16 bytes (8 two-byte AVR pointers), not
the element count 8, so a line of ten whitespace-separated tokens is split
into ten stored tokens, more than the claimed bound of eight. -/
theorem parse_token_bound_counterexample :
    (parseLine (String.toList "a a a a a a a a a a") sizeof_argument_words).length = 10 ∧
    ¬((parseLine (String.toList "a a a a a a a a a a") sizeof_argument_words).length ≤ 8) := by
  decide

/-- C8 (amended): with maxArgs = sizeof(argument_words) = 16, parse stores
at most 15 tokens on any line; a 20-token line stores exactly 15 tokens and
the terminator write lands in slot 15, which is past the end of the
8-element argument_words table (slots 8 to 15 are out of bounds); and for
the bare line set_prot the parse writes only slots 0 (the command token) and
1 (the terminator) while the dispatcher reads slot 2, an entry that this
line's parse never wrote. -/
theorem parse_bound_and_oob :
    (∀ l : List Char, (parseLine l sizeof_argument_words).length ≤ 15) ∧
    ((parseLine (String.toList "a a a a a a a a a a a a a a a a a a a a")
        sizeof_argument_words).length = 15 ∧
      (15 : Nat) ∈ writeSlots (String.toList "a a a a a a a a a a a a a a a a a a a a")
        sizeof_argument_words ∧
      argument_words_len ≤ 15) ∧
    (writeSlots (String.toList "set_prot") sizeof_argument_words = [0, 1] ∧
      2 ∈ readSlots (String.toList "set_prot") ∧
      ¬(2 ∈ writeSlots (String.toList "set_prot") sizeof_argument_words)) := by
  refine ⟨?_, by decide, by decide⟩
  intro l
  have h := parseTokens_length_le sizeof_argument_words (l.length + 1) l 0 (by decide)
  have hs : sizeof_argument_words = 16 := rfl
  rw [parseLine]
  omega

/-- C8 witness: the bound and out-of-bounds facts evaluated on the concrete
lines used in the amended statement. -/
theorem parse_bound_and_oob_witness :
    (parseLine (String.toList "set_prot 0 150") sizeof_argument_words).length ≤ 15 ∧
    (parseLine (String.toList "a a a a a a a a a a a a a a a a a a a a")
        sizeof_argument_words).length = 15 :=
  ⟨parse_bound_and_oob.1 (String.toList "set_prot 0 150"),
   parse_bound_and_oob.2.1.1⟩

/-- C5 is a code bug: the bring-up line s 0 12 22 00 declares axis 0 (tens
digit) with two whiskers and then axis 1 (ones digit) with two whiskers, so
by the declaration-order contract channels 0 and 1 should belong to axis 0
and channels 2 and 3 to axis 1; but both binding loops write
whisker_col_id starting at index 0, so the second declaration overwrites the
first and channels 2 and 3 are never written, leaving the bindings
[1, 1, 0, 0] instead of [0, 0, 1, 1]. -/
theorem setup_s_binding_overwrite :
    (setup_s globalsInit 12 22 0).num_steppers = 2 ∧
    (setup_s globalsInit 12 22 0).num_whiskers = 4 ∧
    (setup_s globalsInit 12 22 0).whisker_col_id 0 = 1 ∧
    (setup_s globalsInit 12 22 0).whisker_col_id 1 = 1 ∧
    (setup_s globalsInit 12 22 0).whisker_col_id 2 = 0 ∧
    (setup_s globalsInit 12 22 0).whisker_col_id 3 = 0 ∧
    ¬((setup_s globalsInit 12 22 0).whisker_col_id 0 = 0) := by
  decide

end FlexSensorArray
